import Mathlib

/-!
Verification of the html-resource-embedder CLI (`cli.js`).

The development shallowly embeds the resource-embedding pass of the tool:
the parsed DOM node model of htmlparser2, the attribute handling, the CSS
`url(...)` rewriter (a faithful model of the regex at cli.js line 141 with
its `g` and `i` flags and lazy group), the `fetchAndEmbedResource` routine
(cli.js lines 118-173), the three selection passes of `embedResources`
(lines 175-198), the `.html` file filter of the `fs.readdir` callback
(lines 242-250), and the completion counters of `writeFile`
(lines 105-115).

External library functions (the filesystem, the base64 image encoder of
`base64-img`) are passed in as explicit function parameters so that the
embedded code stays pure; side effects (the missing-file warning, calls of
`process.exit`, files loaded from disk) are recorded in an explicit result
structure.
-/

/-- A node of the htmlparser2 DOM. `ntype` models the JS `type` field
(`tag`, `script`, `style`, `text`, ...), `nname` the `name` field (tag
name), `attribs` the attribute object (`none` models a deleted/undefined
`attribs`, as after `delete tag.attribs`), `children` the child list and
`ndata` the `data` field of text nodes. -/
inductive Node : Type where
  | mk : (ntype : String) → (nname : String) →
      (attribs : Option (List (String × String))) →
      (children : List Node) → (ndata : String) → Node

def Node.ntype : Node → String
  | .mk t _ _ _ _ => t

def Node.nname : Node → String
  | .mk _ n _ _ _ => n

def Node.attribs : Node → Option (List (String × String))
  | .mk _ _ a _ _ => a

def Node.children : Node → List Node
  | .mk _ _ _ c _ => c

def Node.ndata : Node → String
  | .mk _ _ _ _ d => d

/-- The text node object with a data field and the type field set to text,
built at cli.js lines 160-163. -/
def textNode (s : String) : Node := Node.mk "text" "" none [] s

/-- JS truthiness of `attribs[k]`: the attribute must be present and its
string value non-empty (the empty string is falsy in JS). -/
def attrTruthy (attribs : List (String × String)) (k : String) : Bool :=
  match attribs.lookup k with
  | some v => !(v == "")
  | none => false

/-- Model of `delete tag.attribs[k]`. -/
def eraseAttr (k : String) (attribs : List (String × String)) :
    List (String × String) :=
  attribs.filter (fun kv => !(kv.1 == k))

/-- Model of the JS assignment `tag.attribs[k] = v`: replace the value in
place when the key exists (JS objects keep insertion order), append
otherwise. -/
def setAttr (k v : String) (attribs : List (String × String)) :
    List (String × String) :=
  if attribs.any (fun kv => kv.1 == k) then
    attribs.map (fun kv => if kv.1 = k then (kv.1, v) else kv)
  else attribs ++ [(k, v)]

/-- Simplified model of the Node library function `path.join`: concatenation with
a separator. Normalization of `.`/`..` segments is not modelled; no claim
depends on it. -/
def pathJoin (a b : String) : String := a ++ "/" ++ b

/-- Simplified model of the Node library function `path.dirname`: everything before the last
slash, or `.` when the path has no slash. -/
def dirname (p : String) : String :=
  if p.data.contains '/' then
    String.mk (((p.data.reverse.dropWhile (fun c => !(c == '/'))).drop 1).reverse)
  else "."

/-- The single-quote character, written by code point to keep the source
free of quote-literal noise. -/
def quoteChar : Char := Char.ofNat 39

/-- The image-extension allow-list of the regex at cli.js line 141. -/
def extListStr : List String :=
  ["jpg", "gif", "png", "jpeg", "exif", "bmp", "tiff", "ppm", "pgm", "pbm",
   "pnm", "svg"]

def extChars : List (List Char) := extListStr.map String.data

/-- Case-insensitive match of a (lowercase) pattern against the front of a
character list; returns the consumed original-case characters and the
rest. Models the `i` flag of the regex. -/
def matchCI : List Char → List Char → Option (List Char × List Char)
  | [], cs => some ([], cs)
  | _ :: _, [] => none
  | p :: ps, c :: cs =>
      if c.toLower == p then
        match matchCI ps cs with
        | some (consumed, rest) => some (c :: consumed, rest)
        | none => none
      else none

/-- Try each allow-listed extension in the alternation order of the regex.
No listed extension is a prefix of another, so at most one alternative can
match at a given position. -/
def firstExtMatch : List (List Char) → List Char → Option (List Char × List Char)
  | [], _ => none
  | e :: es, cs =>
      match matchCI e cs with
      | some r => some r
      | none => firstExtMatch es cs

/-- Match the regex tail after the extension: an optional quote
followed by a literal closing parenthesis. Returns the rest of the
input after the parenthesis. -/
def afterPath : List Char → Option (List Char)
  | [] => none
  | c :: cs =>
      if c == ')' then some cs
      else if c == '"' || c == quoteChar then
        match cs with
        | d :: ds => if d == ')' then some ds else none
        | [] => none
      else none

/-- The lazy group of the regex. `acc` holds the reversed prefix consumed
by the lazy quantifier so far; at each position first try to read the dot,
an extension and the closing tail, then (on failure) extend the prefix by
one non-newline character. Returns the captured group `p1` (prefix, dot
and extension, in original case) and the input remaining after the closing
parenthesis. -/
def findLazy (acc : List Char) : List Char → Option (List Char × List Char)
  | [] => none
  | c :: rest =>
      match (if c == '.' then
               match firstExtMatch extChars rest with
               | some (e, rest2) =>
                   match afterPath rest2 with
                   | some rest3 => some ((acc.reverse ++ c :: e, rest3))
                   | none => none
               | none => none
             else none) with
      | some r => some r
      | none =>
          if c == Char.ofNat 10 then none
          else findLazy (c :: acc) rest

/-- Try to match the whole regex at the start of the input: the literal
`url(` (case-insensitive under the `i` flag), a greedy optional opening
quote (with backtracking into the quoteless reading when the quoted one
fails), then the lazy path group. -/
def tryMatchAt (cs : List Char) : Option (List Char × List Char) :=
  match cs with
  | u :: r :: l :: p :: rest =>
      if u.toLower == 'u' && r.toLower == 'r' && l.toLower == 'l' && p == '(' then
        match rest with
        | q :: rest2 =>
            if q == '"' || q == quoteChar then
              match findLazy [] rest2 with
              | some m => some m
              | none => findLazy [] rest
            else findLazy [] rest
        | [] => none
      else none
  | _ => none

/-- Global (`g`-flag) scan-and-replace of cli.js lines 141-147: at each
position try the regex; on a match emit `url(` followed by the output of
the encoder on the joined path and the closing parenthesis, then continue after
the match; otherwise copy one character and move on. The fuel equals the
input length, which every call provides, and always suffices because each
step consumes at least one character. -/
def cssReplaceAux (enc : String → String) (baseDir : String) :
    Nat → List Char → List Char
  | _, [] => []
  | 0, cs => cs
  | fuel + 1, c :: rest =>
      match tryMatchAt (c :: rest) with
      | some (p1, after) =>
          ("url(".data) ++ ((enc (pathJoin baseDir (String.mk p1))).data ++
            ([')'] ++ cssReplaceAux enc baseDir fuel after))
      | none => c :: cssReplaceAux enc baseDir fuel rest

/-- The CSS URL Rewriter: `data.replace(regex, (match, p1) => ...)` of
cli.js lines 141-147, with the image encoder `b64img.base64Sync` passed in
as `enc`. -/
def rewriteCssUrls (enc : String → String) (baseDir : String) (css : String) :
    String :=
  String.mk (cssReplaceAux enc baseDir css.data.length css.data)

/-- JS `String.prototype.startsWith`, as a character-list prefix test so
that concrete instances evaluate inside the kernel. -/
def jsStartsWith (s pre : String) : Bool := pre.data.isPrefixOf s.data

/-- Result of one `fetchAndEmbedResource` call: the (possibly rewritten)
node, whether the missing-file warning of cli.js line 133 was printed,
the `process.exit` code requested through `assertError` (cli.js lines
84-89), if any, and the list of local files loaded from disk. -/
structure EmbedResult where
  node : Node
  warned : Bool
  exitCode : Option Nat
  reads : List String

/-- Shallow embedding of `fetchAndEmbedResource` (cli.js lines 118-173).
`fsExists` models `fs.existsSync`, `fsRead` models
`fs.readFileSync` in utf8 mode, `imgEncode` models `b64img.base64Sync`, and
`externalFlag` models `cli.flags.external`. -/
def fetchAndEmbedResource (fsExists : String → Bool) (fsRead : String → String)
    (imgEncode : String → String) (externalFlag : Bool) (basePath : String)
    (tag : Node) (requiredAttributes : List String) (rtype : String)
    (pathAttribute : String) (newTagType : Option String)
    (newTagName : Option String) : EmbedResult :=
  let shouldProcess := tag.attribs.isSome &&
    requiredAttributes.all (fun a => attrTruthy (tag.attribs.getD []) a)
  if shouldProcess then
    let m := tag.attribs.getD []
    let src := (m.lookup pathAttribute).getD ""
    let isExternal := jsStartsWith src "http"
    if !isExternal then
      let filePath := pathJoin basePath src
      if !(fsExists filePath) then
        ⟨tag, true, none, []⟩
      else
        if !(rtype == "image") then
          let data := fsRead filePath
          let m1 := eraseAttr "src" m
          if rtype == "stylesheet" then
            let data2 := rewriteCssUrls imgEncode (dirname filePath) data
            ⟨Node.mk (newTagType.getD tag.ntype) (newTagName.getD tag.nname)
              none [textNode data2] tag.ndata, false, none, [filePath]⟩
          else
            ⟨Node.mk (newTagType.getD tag.ntype) (newTagName.getD tag.nname)
              (some m1) [textNode data] tag.ndata, false, none, [filePath]⟩
        else
          ⟨Node.mk tag.ntype tag.nname
            (some (setAttr "src" (imgEncode filePath) m)) tag.children
            tag.ndata, false, none, [filePath]⟩
    else
      if externalFlag then ⟨tag, false, some 1, []⟩
      else ⟨tag, false, none, []⟩
  else ⟨tag, false, none, []⟩

/-- The script pass call site of cli.js line 186. -/
def scriptEmbed (fsExists : String → Bool) (fsRead imgEncode : String → String)
    (externalFlag : Bool) (basePath : String) (tag : Node) : EmbedResult :=
  fetchAndEmbedResource fsExists fsRead imgEncode externalFlag basePath tag
    ["src"] "script" "src" none none

/-- The stylesheet pass call site of cli.js line 190. -/
def linkEmbed (fsExists : String → Bool) (fsRead imgEncode : String → String)
    (externalFlag : Bool) (basePath : String) (tag : Node) : EmbedResult :=
  fetchAndEmbedResource fsExists fsRead imgEncode externalFlag basePath tag
    ["rel", "href"] "stylesheet" "href" (some "style") (some "style")

/-- The image pass call site of cli.js line 194. -/
def imageEmbed (fsExists : String → Bool) (fsRead imgEncode : String → String)
    (externalFlag : Bool) (basePath : String) (tag : Node) : EmbedResult :=
  fetchAndEmbedResource fsExists fsRead imgEncode externalFlag basePath tag
    ["src"] "image" "src" none none

mutual

/-- Apply `f` to every node of the tree satisfying `p`, children first.
This is the functional rendering of `domutils.findAll` followed by the
in-place `forEach` mutation of cli.js lines 185-195: the selection
predicates read only the `type`/`name` fields, which child rewrites never
alter, and a parent rewrite that replaces its children discards whatever
the child rewrites produced, exactly as mutating detached children does in
the original. -/
def mapNode (p : Node → Bool) (f : Node → Node) : Node → Node
  | .mk t nm a c d =>
      let n2 := Node.mk t nm a (mapList p f c) d
      if p n2 then f n2 else n2

def mapList (p : Node → Bool) (f : Node → Node) : List Node → List Node
  | [] => []
  | x :: xs => mapNode p f x :: mapList p f xs

end

/-- The three selection-and-rewrite passes of `embedResources` (cli.js
lines 175-198): script elements by comparing `elem.type` with script,
links by comparing `elem.name` with link, and images by comparing
`elem.name` with img, only when the
images flag is set. Only the rewritten nodes are tracked here; the
per-node side effects are covered by the `EmbedResult` theorems. -/
def embedResourcesTree (fsExists : String → Bool)
    (fsRead imgEncode : String → String) (imagesFlag externalFlag : Bool)
    (basePath : String) (dom : List Node) : List Node :=
  let d1 := mapList (fun n => n.ntype == "script")
    (fun t => (scriptEmbed fsExists fsRead imgEncode externalFlag basePath t).node) dom
  let d2 := mapList (fun n => n.nname == "link")
    (fun t => (linkEmbed fsExists fsRead imgEncode externalFlag basePath t).node) d1
  if imagesFlag then
    mapList (fun n => n.nname == "img")
      (fun t => (imageEmbed fsExists fsRead imgEncode externalFlag basePath t).node) d2
  else d2

/-- Render an attribute list as it appears inside a start tag. -/
def renderAttrs : List (String × String) → String
  | [] => ""
  | (k, v) :: rest => " " ++ k ++ "=" ++ "\"" ++ v ++ "\"" ++ renderAttrs rest

mutual

/-- Model of `domutils.getOuterHTML` on one node, restricted to the node
shapes this tool produces: text nodes render as their data, elements as a
start tag with their attributes, their rendered children and an end
tag. -/
def renderNode : Node → String
  | .mk t nm a c d =>
      if t == "text" then d
      else "<" ++ nm ++ renderAttrs (a.getD []) ++ ">" ++ renderChildren c ++
        "</" ++ nm ++ ">"

/-- Concatenated rendering of a node list; on a whole DOM this is the
serialization loop of `writeFile` (cli.js lines 100-102). -/
def renderChildren : List Node → String
  | [] => ""
  | x :: xs => renderNode x ++ renderChildren xs

end

/-- JS `String.prototype.split` specialised to the dot separator, on
character lists: `jsSplitDot` of the empty list is `[[]]` just as the JS
split of the empty string is a singleton of the empty string, and empty
segments between consecutive dots are kept. -/
def jsSplitDot : List Char → List (List Char)
  | [] => [[]]
  | c :: cs =>
      if c == '.' then [] :: jsSplitDot cs
      else
        match jsSplitDot cs with
        | [] => [[c]]
        | s :: ss => (c :: s) :: ss

/-- Model of JS `toLowerCase` (restricted to the per-character lowering
that file extensions need). -/
def lowerStr (s : String) : String := String.mk (s.data.map Char.toLower)

/-- The segment `file.split(dot).pop()` of cli.js line 245. -/
def lastDotSegment (s : String) : String :=
  String.mk ((jsSplitDot s.data).getLastD [])

/-- The `.html` filter of cli.js line 245:
`file.split(dot).pop().toLowerCase() == html`. -/
def selectHtml (s : String) : Bool := lowerStr (lastDotSegment s) == "html"

/-- The `htmlFiles` list built by the `fs.readdir` callback
(cli.js lines 242-248). -/
def htmlFilesOf (listing : List String) : List String :=
  listing.filter selectHtml

/-- Modelled from the spec, for comparison with `selectHtml`: the
extension of a file name in the usual sense that the filesystem contract
of the spec
appeals to — the part after the last dot when the name contains a dot, and
empty (no extension) for a dotless name. -/
def specExtension (s : String) : String :=
  if s.data.contains '.' then lastDotSegment s else ""

/-- The two completion counters of cli.js lines 77-78:
`numberOfFilesProcessed` and the number of times the completion signal
(`Done :)` plus `spinner.stop`, cli.js lines 110-111) has fired. The
queued total `numberOfFilesToProcess` is a parameter. -/
structure CompletionState where
  processed : Nat
  doneSignals : Nat

/-- The write-completion callback body of cli.js lines 109-114:
pre-increment the processed counter and fire the completion signal exactly
when it reaches the total. -/
def onWriteComplete (total : Nat) (s : CompletionState) : CompletionState :=
  if s.processed + 1 = total then ⟨s.processed + 1, s.doneSignals + 1⟩
  else ⟨s.processed + 1, s.doneSignals⟩

/-- The completion state after `k` write callbacks have run, starting from
the initial counters `0`/no signal. The order in which the underlying file
writes finish is irrelevant: every callback runs the same increment. -/
def runWrites (total : Nat) : Nat → CompletionState
  | 0 => ⟨0, 0⟩
  | Nat.succ k => onWriteComplete total (runWrites total k)

/-- Outcome of the `fs.readdir` callback after filtering
(cli.js lines 250-258): either dispatch the `n` discovered `.html` files
into the processing pipeline, or — on zero files — immediately stop the
spinner and print the `did not find` notice, letting the process end
normally with exit code 0 without ever entering the write/increment
path. -/
inductive DispatchOutcome where
  | processFiles : Nat → DispatchOutcome
  | emptyNotice : DispatchOutcome
deriving DecidableEq, Repr

/-- The dispatch decision of cli.js lines 250-258. -/
def readdirDispatch (listing : List String) : DispatchOutcome :=
  let htmlFiles := htmlFilesOf listing
  if htmlFiles.length > 0 then .processFiles htmlFiles.length
  else .emptyNotice

/-- The allow-listed extensions in both lowercase and uppercase spelling,
used to exercise the case-insensitive matching of the rewriter. -/
def extListBoth : List String :=
  extListStr ++ ["JPG", "GIF", "PNG", "JPEG", "EXIF", "BMP", "TIFF", "PPM",
    "PGM", "PBM", "PNM", "SVG"]

/-! Helper lemmas shared by the claim theorems. -/

theorem lookup_map_replace (k v q : String) (m : List (String × String))
    (h : q ≠ k) :
    (m.map (fun kv => if kv.1 = k then (kv.1, v) else kv)).lookup q
      = m.lookup q := by
  induction m with
  | nil => rfl
  | cons a m ih =>
      obtain ⟨ak, av⟩ := a
      by_cases hk : ak = k
      · subst hk
        simp [List.lookup_cons, beq_false_of_ne h, ih]
      · by_cases hq : q = ak
        · subst hq
          simp [List.lookup_cons, hk]
        · simp [List.lookup_cons, hk, beq_false_of_ne hq, ih]

theorem lookup_append_single (k v q : String) (m : List (String × String))
    (h : q ≠ k) :
    (m ++ [(k, v)]).lookup q = m.lookup q := by
  induction m with
  | nil => simp [List.lookup_cons, beq_false_of_ne h]
  | cons a m ih =>
      obtain ⟨ak, av⟩ := a
      by_cases hq : q = ak
      · subst hq
        simp [List.lookup_cons]
      · simp [List.lookup_cons, beq_false_of_ne hq, ih]

theorem lookup_setAttr_ne (k v q : String) (m : List (String × String))
    (h : q ≠ k) :
    (setAttr k v m).lookup q = m.lookup q := by
  unfold setAttr
  split
  · exact lookup_map_replace k v q m h
  · exact lookup_append_single k v q m h

theorem jsSplitDot_no_dot (cs : List Char) (h : cs.contains '.' = false) :
    jsSplitDot cs = [cs] := by
  induction cs with
  | nil => rfl
  | cons c cs ih =>
      simp only [List.contains_cons, Bool.or_eq_false_iff] at h
      have hc : (c == '.') = false :=
        beq_false_of_ne (Ne.symm (ne_of_beq_false h.1))
      unfold jsSplitDot
      simp [hc, ih h.2]

theorem runWrites_processed (total k : Nat) :
    (runWrites total k).processed = k := by
  induction k with
  | zero => rfl
  | succ k ih =>
      unfold runWrites onWriteComplete
      split <;> simp [ih]

theorem runWrites_signals (total k : Nat) (h : k ≤ total) :
    (runWrites total k).doneSignals
      = if k = total ∧ 0 < total then 1 else 0 := by
  induction k with
  | zero =>
      unfold runWrites
      split
      · exfalso
        omega
      · rfl
  | succ k ih =>
      have hk : k ≤ total := Nat.le_of_succ_le h
      have hs := ih hk
      have hne : ¬(k = total ∧ 0 < total) := by omega
      rw [if_neg hne] at hs
      unfold runWrites onWriteComplete
      simp only [runWrites_processed]
      by_cases he : k + 1 = total
      · rw [if_pos he, if_pos ⟨he, by omega⟩]
        simp [hs]
      · rw [if_neg he, if_neg (fun hc => he hc.1)]
        simpa using hs

/-! Claim theorems. -/

/-- Claim C1: for every script element whose src attribute is present,
non-empty, not http-prefixed and names an existing file, the script pass
removes the src attribute, keeps the element type and tag name unchanged
(it stays a script), replaces the children with a single text node holding
the file content, and requests no process exit; when src was the only
attribute the node serializes to a bare script tag wrapping the file
content. -/
theorem c1_script_embedding (fsE : String → Bool) (fsR enc : String → String)
    (externalFlag : Bool) (base t nm : String) (m : List (String × String))
    (c : List Node) (d v : String)
    (hsrc : m.lookup "src" = some v) (hne : (v == "") = false)
    (hloc : jsStartsWith v "http" = false)
    (hex : fsE (pathJoin base v) = true) :
    (scriptEmbed fsE fsR enc externalFlag base (Node.mk t nm (some m) c d)).node
      = Node.mk t nm (some (eraseAttr "src" m))
          [textNode (fsR (pathJoin base v))] d ∧
    (scriptEmbed fsE fsR enc externalFlag base (Node.mk t nm (some m) c d)).exitCode
      = none ∧
    (m = [("src", v)] → t = "script" → nm = "script" →
      renderNode (scriptEmbed fsE fsR enc externalFlag base
          (Node.mk t nm (some m) c d)).node
        = "<script>" ++ fsR (pathJoin base v) ++ "</script>") := by
  have h1 : attrTruthy m "src" = true := by
    simp [attrTruthy, hsrc, hne]
  have hmain : (scriptEmbed fsE fsR enc externalFlag base
      (Node.mk t nm (some m) c d)).node
      = Node.mk t nm (some (eraseAttr "src" m))
          [textNode (fsR (pathJoin base v))] d := by
    unfold scriptEmbed fetchAndEmbedResource
    simp [Node.attribs, Node.ntype, Node.nname, Node.ndata, h1, hsrc, hloc, hex]
  refine ⟨hmain, ?_, ?_⟩
  · unfold scriptEmbed fetchAndEmbedResource
    simp [Node.attribs, h1, hsrc, hloc, hex]
  · intro hm ht hn
    rw [hmain, hm, ht, hn]
    simp only [renderNode, renderChildren, renderAttrs, textNode, eraseAttr,
      String.append_assoc]
    rfl

/-- Witness for C1 at a concrete script tag and filesystem. -/
theorem c1_script_embedding_witness :
    (scriptEmbed (fun _ => true) (fun _ => "XCONTENT") (fun s => s) false
        "base" (Node.mk "script" "script" (some [("src", "a.js")]) [] "")).node
      = Node.mk "script" "script" (some []) [textNode "XCONTENT"] "" ∧
    renderNode (scriptEmbed (fun _ => true) (fun _ => "XCONTENT") (fun s => s)
        false "base"
        (Node.mk "script" "script" (some [("src", "a.js")]) [] "")).node
      = "<script>XCONTENT</script>" :=
  have h := c1_script_embedding (fun _ => true) (fun _ => "XCONTENT")
    (fun s => s) false "base" "script" "script" [("src", "a.js")] [] "" "a.js"
    rfl rfl (by decide) rfl
  ⟨h.1, h.2.2 rfl rfl rfl⟩

/-- Claim C2: for every link element with rel and href present and
non-empty, href not http-prefixed and naming an existing file, the
stylesheet pass discards all attributes, sets both the element type and
the tag name to style, and replaces the children with a single text node
holding the CSS-rewritten file content, so the node serializes to a style
tag wrapping that content. -/
theorem c2_link_embedding (fsE : String → Bool) (fsR enc : String → String)
    (externalFlag : Bool) (base t nm : String) (m : List (String × String))
    (c : List Node) (d rv hv : String)
    (hrel : m.lookup "rel" = some rv) (hrne : (rv == "") = false)
    (hhref : m.lookup "href" = some hv) (hne : (hv == "") = false)
    (hloc : jsStartsWith hv "http" = false)
    (hex : fsE (pathJoin base hv) = true) :
    (linkEmbed fsE fsR enc externalFlag base (Node.mk t nm (some m) c d)).node
      = Node.mk "style" "style" none
          [textNode (rewriteCssUrls enc (dirname (pathJoin base hv))
            (fsR (pathJoin base hv)))] d ∧
    renderNode (linkEmbed fsE fsR enc externalFlag base
        (Node.mk t nm (some m) c d)).node
      = "<style>" ++ rewriteCssUrls enc (dirname (pathJoin base hv))
          (fsR (pathJoin base hv)) ++ "</style>" := by
  have h1 : attrTruthy m "rel" = true := by simp [attrTruthy, hrel, hrne]
  have h2 : attrTruthy m "href" = true := by simp [attrTruthy, hhref, hne]
  have hmain : (linkEmbed fsE fsR enc externalFlag base
      (Node.mk t nm (some m) c d)).node
      = Node.mk "style" "style" none
          [textNode (rewriteCssUrls enc (dirname (pathJoin base hv))
            (fsR (pathJoin base hv)))] d := by
    unfold linkEmbed fetchAndEmbedResource
    simp [Node.attribs, Node.ntype, Node.nname, Node.ndata, h1, h2, hhref,
      hloc, hex]
  refine ⟨hmain, ?_⟩
  rw [hmain]
  simp only [renderNode, renderChildren, renderAttrs, textNode,
    Option.getD, String.append_assoc]
  rfl

/-- Witness for C2 at a concrete stylesheet link and filesystem. -/
theorem c2_link_embedding_witness :
    (linkEmbed (fun _ => true) (fun _ => "Ycss") (fun s => s) false "base"
        (Node.mk "tag" "link"
          (some [("rel", "stylesheet"), ("href", "b.css")]) [] "")).node
      = Node.mk "style" "style" none [textNode "Ycss"] "" ∧
    renderNode (linkEmbed (fun _ => true) (fun _ => "Ycss") (fun s => s)
        false "base"
        (Node.mk "tag" "link"
          (some [("rel", "stylesheet"), ("href", "b.css")]) [] "")).node
      = "<style>Ycss</style>" :=
  c2_link_embedding (fun _ => true) (fun _ => "Ycss") (fun s => s) false
    "base" "tag" "link" [("rel", "stylesheet"), ("href", "b.css")] [] ""
    "stylesheet" "b.css" rfl rfl rfl rfl (by decide) rfl

/-- Counterexample to claim C3 as stated: an already-absolute `url(...)`
reference whose path textually ends in an allow-listed image extension is
not left untouched — the rewriter replaces it, joining the absolute URL
onto the base directory. -/
theorem c3_absolute_url_rewritten :
    rewriteCssUrls (fun s => "DATA-" ++ s) "b" "url(http://x/a.png)"
      = "url(DATA-b/http://x/a.png)" ∧
    rewriteCssUrls (fun s => "DATA-" ++ s) "b" "url(http://x/a.png)"
      ≠ "url(http://x/a.png)" := by
  constructor
  · rfl
  · decide

/-- Claim C3 (amended): every `url(...)` occurrence whose path textually
ends in an allow-listed image extension (case-insensitive) is replaced by
`url(dataUri)` with the path joined to the base directory of the
stylesheet, regardless of whether the reference is relative or absolute,
and occurrences that do not match the textual pattern — such as non-image
paths or data URIs whose payload does not end in a listed extension — are
left untouched. -/
theorem c3_textual_extension_match (enc : String → String) (ext : String)
    (h : ext ∈ extListBoth) :
    rewriteCssUrls enc "bdir" ("url(img/c." ++ ext ++ ")")
      = "url(" ++ enc ("bdir/img/c." ++ ext) ++ ")" ∧
    rewriteCssUrls enc "bdir" "url(app.css)" = "url(app.css)" ∧
    rewriteCssUrls enc "bdir" "url(data:image/png;base64,AAAA)"
      = "url(data:image/png;base64,AAAA)" := by
  refine ⟨?_, rfl, rfl⟩
  fin_cases h <;> rfl

/-- Witness for C3 (amended) at the png extension with the identity
encoder. -/
theorem c3_textual_extension_match_witness :
    rewriteCssUrls (fun s => s) "bdir" "url(img/c.png)" = "url(bdir/img/c.png)" ∧
    rewriteCssUrls (fun s => s) "bdir" "url(app.css)" = "url(app.css)" ∧
    rewriteCssUrls (fun s => s) "bdir" "url(data:image/png;base64,AAAA)"
      = "url(data:image/png;base64,AAAA)" :=
  c3_textual_extension_match (fun s => s) "png" (by decide)

/-- Claim C4: for every eligible tag (attributes present and every
required attribute truthy) whose non-external path resolves to a file
that does not exist, the pass prints the warning, leaves the node
completely unmodified, requests no process exit, and reads nothing from
disk, so processing of the remaining tags and files continues. -/
theorem c4_missing_resource (fsE : String → Bool) (fsR enc : String → String)
    (externalFlag : Bool) (base : String) (tag : Node)
    (m : List (String × String)) (reqAttrs : List String)
    (rtype pathAttr : String) (ntt ntn : Option String)
    (hattr : tag.attribs = some m)
    (hall : reqAttrs.all (fun a => attrTruthy m a) = true)
    (hloc : jsStartsWith ((m.lookup pathAttr).getD "") "http" = false)
    (hmiss : fsE (pathJoin base ((m.lookup pathAttr).getD "")) = false) :
    fetchAndEmbedResource fsE fsR enc externalFlag base tag reqAttrs rtype
        pathAttr ntt ntn
      = ⟨tag, true, none, []⟩ := by
  unfold fetchAndEmbedResource
  simp [hattr, hall, hloc, hmiss]

/-- Witness for C4 at a concrete script tag over an empty filesystem. -/
theorem c4_missing_resource_witness :
    fetchAndEmbedResource (fun _ => false) (fun _ => "X") (fun s => s) false
        "base" (Node.mk "script" "script" (some [("src", "gone.js")]) [] "")
        ["src"] "script" "src" none none
      = ⟨Node.mk "script" "script" (some [("src", "gone.js")]) [] "", true,
          none, []⟩ :=
  c4_missing_resource (fun _ => false) (fun _ => "X") (fun s => s) false
    "base" (Node.mk "script" "script" (some [("src", "gone.js")]) [] "")
    [("src", "gone.js")] ["src"] "script" "src" none none rfl rfl (by decide)
    rfl

/-- Claim C5: for every eligible tag whose path attribute value is
classified external (http-prefixed), the pass leaves the node untouched
and requests no exit when the external flag is disabled, and leaves the
node untouched but requests process exit with code 1 when the flag is
enabled; in both cases nothing is read from disk, so no external fetch is
ever performed. -/
theorem c5_external_resource (fsE : String → Bool) (fsR enc : String → String)
    (base : String) (tag : Node) (m : List (String × String))
    (reqAttrs : List String) (rtype pathAttr : String) (ntt ntn : Option String)
    (hattr : tag.attribs = some m)
    (hall : reqAttrs.all (fun a => attrTruthy m a) = true)
    (hext : jsStartsWith ((m.lookup pathAttr).getD "") "http" = true) :
    fetchAndEmbedResource fsE fsR enc false base tag reqAttrs rtype
        pathAttr ntt ntn = ⟨tag, false, none, []⟩ ∧
    fetchAndEmbedResource fsE fsR enc true base tag reqAttrs rtype
        pathAttr ntt ntn = ⟨tag, false, some 1, []⟩ := by
  constructor <;>
    · unfold fetchAndEmbedResource
      simp [hattr, hall, hext]

/-- Witness for C5 at a concrete script tag with an http src. -/
theorem c5_external_resource_witness :
    fetchAndEmbedResource (fun _ => true) (fun _ => "X") (fun s => s) false
        "base"
        (Node.mk "script" "script" (some [("src", "http://cdn/x.js")]) [] "")
        ["src"] "script" "src" none none
      = ⟨Node.mk "script" "script" (some [("src", "http://cdn/x.js")]) [] "",
          false, none, []⟩ ∧
    fetchAndEmbedResource (fun _ => true) (fun _ => "X") (fun s => s) true
        "base"
        (Node.mk "script" "script" (some [("src", "http://cdn/x.js")]) [] "")
        ["src"] "script" "src" none none
      = ⟨Node.mk "script" "script" (some [("src", "http://cdn/x.js")]) [] "",
          false, some 1, []⟩ :=
  c5_external_resource (fun _ => true) (fun _ => "X") (fun s => s) "base"
    (Node.mk "script" "script" (some [("src", "http://cdn/x.js")]) [] "")
    [("src", "http://cdn/x.js")] ["src"] "script" "src" none none rfl rfl
    (by decide)

/-- Claim C6: for an img element with the src file existing, the image
pass replaces only the value of the src attribute with the output of the
encoder, keeping the element type, tag name, children and every other
attribute untouched; and when the images flag is disabled the image pass
is never run, so an img element is left byte-for-byte unchanged by the
whole embedding pass. -/
theorem c6_image_embedding (fsE : String → Bool) (fsR enc : String → String)
    (externalFlag : Bool) (base t nm : String) (m : List (String × String))
    (c : List Node) (d v : String)
    (hsrc : m.lookup "src" = some v) (hne : (v == "") = false)
    (hloc : jsStartsWith v "http" = false)
    (hex : fsE (pathJoin base v) = true) :
    (imageEmbed fsE fsR enc externalFlag base (Node.mk t nm (some m) c d)).node
      = Node.mk t nm (some (setAttr "src" (enc (pathJoin base v)) m)) c d ∧
    (∀ q : String, q ≠ "src" →
      (setAttr "src" (enc (pathJoin base v)) m).lookup q = m.lookup q) ∧
    (∀ n : Node, n.nname = "img" → (n.ntype == "script") = false →
      n.children = [] →
      embedResourcesTree fsE fsR enc false externalFlag base [n] = [n]) := by
  refine ⟨?_, fun q hq => lookup_setAttr_ne _ _ _ _ hq, ?_⟩
  · have h1 : attrTruthy m "src" = true := by simp [attrTruthy, hsrc, hne]
    unfold imageEmbed fetchAndEmbedResource
    simp [Node.attribs, Node.ntype, Node.nname, Node.ndata, Node.children,
      h1, hsrc, hloc, hex]
  · intro n h1 h2 h3
    obtain ⟨t2, n2, a2, c2, d2⟩ := n
    simp only [Node.nname] at h1
    simp only [Node.ntype] at h2
    simp only [Node.children] at h3
    subst h1 h3
    unfold embedResourcesTree
    simp [mapList, mapNode, Node.ntype, Node.nname, h2]

/-- Witness for C6 at a concrete img tag with a second attribute. -/
theorem c6_image_embedding_witness :
    (imageEmbed (fun _ => true) (fun _ => "X") (fun s => "DATA-" ++ s) false
        "base"
        (Node.mk "tag" "img" (some [("src", "d.png"), ("alt", "hi")]) [] "")).node
      = Node.mk "tag" "img"
          (some [("src", "DATA-base/d.png"), ("alt", "hi")]) [] "" ∧
    (setAttr "src" "DATA-base/d.png"
        [("src", "d.png"), ("alt", "hi")]).lookup "alt" = some "hi" ∧
    embedResourcesTree (fun _ => true) (fun _ => "X") (fun s => "DATA-" ++ s)
        false false "base" [Node.mk "tag" "img" (some [("src", "d.png")]) [] ""]
      = [Node.mk "tag" "img" (some [("src", "d.png")]) [] ""] :=
  have h := c6_image_embedding (fun _ => true) (fun _ => "X")
    (fun s => "DATA-" ++ s) false "base" "tag" "img"
    [("src", "d.png"), ("alt", "hi")] [] "" "d.png" rfl rfl (by decide) rfl
  ⟨h.1, h.2.1 "alt" (by decide),
    h.2.2 (Node.mk "tag" "img" (some [("src", "d.png")]) [] "") rfl
      (by decide) rfl⟩

/-- Claim C7 counterexample: a dotless directory entry named exactly html
has no extension in the ordinary sense, yet the filter of cli.js line 245
selects it, so selection is not equivalent to having extension html. -/
theorem c7_dotless_html_selected :
    selectHtml "html" = true ∧ specExtension "html" = "" ∧
    lowerStr (specExtension "html") ≠ "html" := by
  refine ⟨rfl, rfl, by decide⟩

/-- Claim C7 (amended): a directory entry is selected if and only if
either it contains a dot and the segment after the last dot lowercases to
html, or it contains no dot and the whole name lowercases to html;
subdirectories are never entered because the filter runs over the flat
readdir listing. -/
theorem c7_extension_selection (s : String) :
    selectHtml s = true ↔
      ((s.data.contains '.' = true ∧ lowerStr (specExtension s) = "html") ∨
       (s.data.contains '.' = false ∧ lowerStr s = "html")) := by
  by_cases hdot : s.data.contains '.' = true
  · have hm : '.' ∈ s.data := by simpa using hdot
    simp [selectHtml, specExtension, hdot, hm]
  · have hdot2 : s.data.contains '.' = false := by simpa using hdot
    have hm : '.' ∉ s.data := by simpa using hdot
    have hsplit : jsSplitDot s.data = [s.data] := jsSplitDot_no_dot _ hdot2
    have heta : String.mk s.data = s := rfl
    simp [selectHtml, specExtension, lastDotSegment, hdot2, hm, hsplit, heta]

/-- Claim C8: after k of the queued write callbacks have completed (for
any completion order), the processed counter equals k and never exceeds
the queued total, the completion signal has fired exactly once when
every queued write has finished with a positive queue and zero times
otherwise, and an empty or html-free listing is announced through the
separate immediate dispatch path that never enters the increment
path. -/
theorem c8_completion_tracking (total k : Nat) (h : k ≤ total) :
    (runWrites total k).processed = k ∧
    (runWrites total k).processed ≤ total ∧
    ((runWrites total k).doneSignals
      = if k = total ∧ 0 < total then 1 else 0) ∧
    readdirDispatch [] = DispatchOutcome.emptyNotice ∧
    readdirDispatch ["notes.txt"] = DispatchOutcome.emptyNotice :=
  ⟨runWrites_processed total k, by rw [runWrites_processed]; exact h,
   runWrites_signals total k h, by decide, by decide⟩

/-- Witness for C8 with two queued files, both completed. -/
theorem c8_completion_tracking_witness :
    (runWrites 2 2).processed = 2 ∧ (runWrites 2 2).processed ≤ 2 ∧
    ((runWrites 2 2).doneSignals = if 2 = 2 ∧ 0 < 2 then 1 else 0) ∧
    readdirDispatch [] = DispatchOutcome.emptyNotice ∧
    readdirDispatch ["notes.txt"] = DispatchOutcome.emptyNotice :=
  c8_completion_tracking 2 2 (by decide)

/-- Claim C9: the external-versus-local classification is a pure textual
prefix test on the path attribute value — any value starting with the
four characters http is treated as external, never read from disk and
(with the external flag off) left untouched, even for a purely local
relative path such as httpdocs/app.js. -/
theorem c9_prefix_external_classification (fsE : String → Bool)
    (fsR enc : String → String) (externalFlag : Bool) (base : String)
    (tag : Node) (m : List (String × String)) (reqAttrs : List String)
    (rtype pathAttr : String) (ntt ntn : Option String)
    (hattr : tag.attribs = some m)
    (hall : reqAttrs.all (fun a => attrTruthy m a) = true)
    (hpre : jsStartsWith ((m.lookup pathAttr).getD "") "http" = true) :
    (fetchAndEmbedResource fsE fsR enc externalFlag base tag reqAttrs rtype
        pathAttr ntt ntn).reads = [] ∧
    (fetchAndEmbedResource fsE fsR enc externalFlag base tag reqAttrs rtype
        pathAttr ntt ntn).node = tag ∧
    jsStartsWith "httpdocs/app.js" "http" = true := by
  refine ⟨?_, ?_, by decide⟩ <;>
    · unfold fetchAndEmbedResource
      cases externalFlag <;> simp [hattr, hall, hpre]

/-- Witness for C9 at a script tag whose src is the local-looking path
httpdocs/app.js. -/
theorem c9_prefix_external_classification_witness :
    (fetchAndEmbedResource (fun _ => true) (fun _ => "X") (fun s => s) false
        "base"
        (Node.mk "script" "script" (some [("src", "httpdocs/app.js")]) [] "")
        ["src"] "script" "src" none none).reads = [] ∧
    (fetchAndEmbedResource (fun _ => true) (fun _ => "X") (fun s => s) false
        "base"
        (Node.mk "script" "script" (some [("src", "httpdocs/app.js")]) [] "")
        ["src"] "script" "src" none none).node
      = Node.mk "script" "script" (some [("src", "httpdocs/app.js")]) [] "" ∧
    jsStartsWith "httpdocs/app.js" "http" = true :=
  c9_prefix_external_classification (fun _ => true) (fun _ => "X")
    (fun s => s) false "base"
    (Node.mk "script" "script" (some [("src", "httpdocs/app.js")]) [] "")
    [("src", "httpdocs/app.js")] ["src"] "script" "src" none none rfl rfl
    (by decide)

/-- Claim C10: the stylesheet pass selects every element named link and
embeds it whenever rel and href are present and non-empty, regardless of
the value of rel — a link with rel icon pointing at an existing file is
also rewritten into a style element whose text child is the file content
(read as text; the CSS rewriter leaves content without matching url
references unchanged). -/
theorem c10_link_rel_value_ignored (fsE : String → Bool)
    (fsR enc : String → String) (externalFlag : Bool) (base t nm : String)
    (m : List (String × String)) (c : List Node) (d hv : String)
    (hrel : m.lookup "rel" = some "icon")
    (hhref : m.lookup "href" = some hv) (hne : (hv == "") = false)
    (hloc : jsStartsWith hv "http" = false)
    (hex : fsE (pathJoin base hv) = true)
    (hfix : rewriteCssUrls enc (dirname (pathJoin base hv))
        (fsR (pathJoin base hv)) = fsR (pathJoin base hv)) :
    (linkEmbed fsE fsR enc externalFlag base (Node.mk t nm (some m) c d)).node
      = Node.mk "style" "style" none [textNode (fsR (pathJoin base hv))] d := by
  have h1 : attrTruthy m "rel" = true := by simp [attrTruthy, hrel]
  have h2 : attrTruthy m "href" = true := by simp [attrTruthy, hhref, hne]
  unfold linkEmbed fetchAndEmbedResource
  simp [Node.attribs, Node.ntype, Node.nname, Node.ndata, h1, h2, hhref,
    hloc, hex, hfix]

/-- Witness for C10 at a concrete icon link. -/
theorem c10_link_rel_value_ignored_witness :
    (linkEmbed (fun _ => true) (fun _ => "iconbytes") (fun s => s) false
        "base"
        (Node.mk "tag" "link"
          (some [("rel", "icon"), ("href", "favicon.ico")]) [] "")).node
      = Node.mk "style" "style" none [textNode "iconbytes"] "" :=
  c10_link_rel_value_ignored (fun _ => true) (fun _ => "iconbytes")
    (fun s => s) false "base" "tag" "link"
    [("rel", "icon"), ("href", "favicon.ico")] [] "" "favicon.ico" rfl rfl
    rfl (by decide) rfl rfl
